import Mathlib

/-!
# Verification of `ollama-oxide`'s client configuration and session-context cache spec

This file shallowly embeds, in Lean 4:

* `src/http/client_config.rs` — the `ClientConfig` struct, its constructors,
  accessors and URL builder (translated from the Rust source);
* the session-context cache store described by the repository specification
  (Cache Locator / Reader-Migrator / Writer and the `ProjectContext` entity).
  The cache-store source is not part of the published sources, so those
  definitions are modelled from the specification text and marked as such.

Machine integers (`u32`, `u64`) are modelled as `Nat`; none of the verified
operations can overflow in a way the claims depend on.
-/

/-! ## Part 1: `ClientConfig` (translated from `src/http/client_config.rs`) -/

/-- Model of `std::time::Duration`: seconds and nanoseconds. -/
structure Duration where
  secs : Nat
  nanos : Nat
deriving DecidableEq, Repr

/-- `Duration::from_secs`. -/
def Duration.from_secs (n : Nat) : Duration := ⟨n, 0⟩

/-- A parsed absolute URL, as far as the embedding needs it: the (lowercased)
scheme and the remainder of the string after the first `:`.  This models the
external `url` crate's `Url` type at the granularity `client_config.rs`
uses it (`Url::parse` followed by `Url::scheme`). -/
structure Url where
  scheme : String
  rest : String
deriving DecidableEq, Repr

/-- Characters allowed in a URL scheme after the first (RFC 3986):
ASCII letters, digits, `+`, `-`, `.`. -/
def isSchemeChar (c : Char) : Bool :=
  c.isAlpha || c.isDigit || c = '+' || c = '-' || c = '.'

/-- Split a character list at its first `:`; `none` when there is no colon. -/
def splitAtColon : List Char → Option (List Char × List Char)
  | [] => none
  | c :: cs =>
    if c = ':' then some ([], cs)
    else (splitAtColon cs).map (fun p => (c :: p.1, p.2))

/-- A valid URL scheme: nonempty, starts with an ASCII letter, remaining
characters scheme characters. -/
def validScheme : List Char → Bool
  | [] => false
  | c :: cs => c.isAlpha && cs.all isSchemeChar

/-- Model of the external `url` crate's `Url::parse` restricted to what
`client_config.rs` observes: an input parses as an absolute URL exactly when
it begins with a valid scheme followed by `:`; the scheme is normalized to
lower case (as the `url` crate does).  Inputs without a scheme fail with
`RelativeUrlWithoutBase`; finer error distinctions of the crate are not
modelled because the source only propagates the error opaquely. -/
def Url.parse (s : String) : Option Url :=
  match splitAtColon s.toList with
  | none => none
  | some (sch, rest) =>
    if validScheme sch then
      some ⟨String.mk (sch.map Char.toLower), String.mk rest⟩
    else none

/-- The error type of the crate, at the granularity `client_config.rs` uses
it: every failure path constructs `Error::InvalidUrlError(_)`; the embedded
`url::ParseError` payload is not distinguished by any claim. -/
inductive Error where
  | InvalidUrlError : Error
deriving DecidableEq, Repr

/-- `validate_base_url` from `client_config.rs`: parse the URL, then require
the scheme to be `http` or `https`. -/
def validate_base_url (base_url : String) : Except Error Unit :=
  match Url.parse base_url with
  | none => .error .InvalidUrlError
  | some url =>
    if url.scheme ≠ "http" ∧ url.scheme ≠ "https" then
      .error .InvalidUrlError
    else
      .ok ()

/-- `ClientConfig` from `client_config.rs`: base URL string (stored verbatim),
request timeout and maximum retry count. -/
structure ClientConfig where
  base_url : String
  timeout : Duration
  max_retries : Nat
deriving DecidableEq, Repr

/-- `impl Default for ClientConfig`. -/
def ClientConfig.default : ClientConfig :=
  { base_url := "http://localhost:11434"
    timeout := Duration.from_secs 30
    max_retries := 3 }

/-- `ClientConfig::new`: validate the base URL, then store all three
arguments verbatim. -/
def ClientConfig.new (base_url : String) (timeout : Duration) (max_retries : Nat) :
    Except Error ClientConfig :=
  match validate_base_url base_url with
  | .error e => .error e
  | .ok _ => .ok { base_url := base_url, timeout := timeout, max_retries := max_retries }

/-- `ClientConfig::with_base_url`: validate, then take defaults for the other
fields (`..Self::default()`). -/
def ClientConfig.with_base_url (base_url : String) : Except Error ClientConfig :=
  match validate_base_url base_url with
  | .error e => .error e
  | .ok _ => .ok { base_url := base_url
                   timeout := ClientConfig.default.timeout
                   max_retries := ClientConfig.default.max_retries }

/-- `ClientConfig::with_base_url_and_timeout`: validate, then take the default
for `max_retries`. -/
def ClientConfig.with_base_url_and_timeout (base_url : String) (timeout : Duration) :
    Except Error ClientConfig :=
  match validate_base_url base_url with
  | .error e => .error e
  | .ok _ => .ok { base_url := base_url
                   timeout := timeout
                   max_retries := ClientConfig.default.max_retries }

/-- `ClientConfig::url`: `format!("{}{}", self.base_url, endpoint)` — plain
string concatenation of the stored base URL and the endpoint. -/
def ClientConfig.url (c : ClientConfig) (endpoint : String) : String :=
  c.base_url ++ endpoint

/-- Lexicographic comparison of character lists by code point: `a ≤ b`. -/
def charsLe : List Char → List Char → Bool
  | [], _ => true
  | _ :: _, [] => false
  | a :: as, b :: bs =>
    if a.toNat < b.toNat then true
    else if b.toNat < a.toNat then false
    else charsLe as bs

/-- Lexicographic order on fixed-format timestamp strings (chronological order
for such strings). -/
def strLe (a b : String) : Bool := charsLe a.toList b.toList

/-! ## Part 2: the session-context cache store

The cache-store implementation is not among the published sources; the
definitions below are modelled from the specification's data model (§3),
Reader/Migrator (§4.2), Writer (§4.3) and state-machine (§4.4) sections. -/

/-- Modelled from the spec: `SessionEntry` — one recorded unit of work:
`datetime` (fixed-format timestamp string), `task` and `summary` (free text,
may be empty). -/
structure SessionEntry where
  datetime : String
  task : String
  summary : String
deriving DecidableEq, Repr

/-- Modelled from the spec: `ProjectContext` — one record per
project/working-directory, the unit of persistence, with the current
(`"2.0"`) schema's `session_history`. -/
structure ProjectContext where
  project_name : String
  version : String
  repository : String
  license : String
  build_system : String
  language : String
  edition : String
  modules : List String
  module_count : Nat
  critical_files : List String
  api_spec_files : List String
  implementation_plan_files : List String
  session_count : Nat
  total_sessions : Nat
  created_at : String
  last_session : String
  project_path : String
  build_status : String
  cache_schema_version : String
  project_hash : String
  session_history : List SessionEntry
deriving DecidableEq, Repr

/-- Modelled from the spec: a legacy-schema document — same scalar and list
fields, but a single embedded `task`/`summary` pair instead of
`session_history`. -/
structure LegacyDoc where
  project_name : String
  version : String
  repository : String
  license : String
  build_system : String
  language : String
  edition : String
  modules : List String
  module_count : Nat
  critical_files : List String
  api_spec_files : List String
  implementation_plan_files : List String
  session_count : Nat
  total_sessions : Nat
  created_at : String
  last_session : String
  project_path : String
  build_status : String
  cache_schema_version : String
  project_hash : String
  task : String
  summary : String
deriving DecidableEq, Repr

/-- Ordering of session entries by their `datetime` field (ascending),
used by the writer's re-sort step. -/
def leEntry (a b : SessionEntry) : Prop := strLe a.datetime b.datetime = true

instance : DecidableRel leEntry := fun a b =>
  inferInstanceAs (Decidable (strLe a.datetime b.datetime = true))

/-- Modelled from the spec (Writer steps 3–4 and the bounded-history design
note): append the new entry, stable-sort by `datetime` ascending, and if the
length exceeds 10 retain only the 10 most recent (drop from the front). -/
def mergeHistory (h : List SessionEntry) (e : SessionEntry) : List SessionEntry :=
  let s := List.insertionSort leEntry (h ++ [e])
  if s.length > 10 then s.drop (s.length - 10) else s

/-- Modelled from the spec: the externally supplied project metadata and file
inventories the Writer consumes as opaque values (§6), plus the fingerprint
computed by the Locator. -/
structure ProjectMeta where
  project_name : String
  version : String
  repository : String
  license : String
  build_system : String
  language : String
  edition : String
  modules : List String
  critical_files : List String
  api_spec_files : List String
  implementation_plan_files : List String
  project_path : String
  build_status : String
  project_hash : String
deriving DecidableEq, Repr

/-- Modelled from the spec (Writer algorithm, §4.3, steps 1–5): assemble the
updated `ProjectContext` from the metadata, the new `(task, summary)` pair,
the current timestamp `now` and the optionally previously loaded context. -/
def save_context (meta : ProjectMeta) (task summary now : String)
    (prev : Option ProjectContext) : ProjectContext :=
  { project_name := meta.project_name
    version := meta.version
    repository := meta.repository
    license := meta.license
    build_system := meta.build_system
    language := meta.language
    edition := meta.edition
    modules := meta.modules
    module_count := meta.modules.length
    critical_files := meta.critical_files
    api_spec_files := meta.api_spec_files
    implementation_plan_files := meta.implementation_plan_files
    session_count := match prev with | some p => p.total_sessions + 1 | none => 1
    total_sessions := match prev with | some p => p.total_sessions + 1 | none => 1
    created_at := match prev with | some p => p.created_at | none => now
    last_session := now
    project_path := meta.project_path
    build_status := meta.build_status
    cache_schema_version := "2.0"
    project_hash := meta.project_hash
    session_history :=
      mergeHistory (match prev with | some p => p.session_history | none => [])
        ⟨now, task, summary⟩ }

/-- Modelled from the spec (Reader/Migrator, §4.2): on legacy decode success,
copy all scalar and list fields verbatim, convert the embedded task/summary
into a single-element `session_history` stamped with the document's
`last_session` — only if task or summary is non-empty, otherwise empty — and
set `cache_schema_version = "2.0"`. -/
def migrate_legacy (d : LegacyDoc) : ProjectContext :=
  { project_name := d.project_name
    version := d.version
    repository := d.repository
    license := d.license
    build_system := d.build_system
    language := d.language
    edition := d.edition
    modules := d.modules
    module_count := d.module_count
    critical_files := d.critical_files
    api_spec_files := d.api_spec_files
    implementation_plan_files := d.implementation_plan_files
    session_count := d.session_count
    total_sessions := d.total_sessions
    created_at := d.created_at
    last_session := d.last_session
    project_path := d.project_path
    build_status := d.build_status
    cache_schema_version := "2.0"
    project_hash := d.project_hash
    session_history :=
      if d.task ≠ "" ∨ d.summary ≠ "" then
        [⟨d.last_session, d.task, d.summary⟩]
      else [] }

/-- Modelled from the spec: a cache file abstracted by its decode outcomes —
what it decodes to under the current (`"2.0"`) schema and under the legacy
schema, together with the decoder's error message for each failing attempt. -/
structure FileBytes where
  decodeV2 : Option ProjectContext
  decodeLegacy : Option LegacyDoc
  v2_error : String
  legacy_error : String
deriving DecidableEq, Repr

/-- Modelled from the spec (Locator, §4.1): the three candidate files of the
cache directory — primary, legacy-per-fingerprint, backup; `none` means the
file does not exist. -/
structure CacheFs where
  primary : Option FileBytes
  legacyFile : Option FileBytes
  backup : Option FileBytes
deriving DecidableEq, Repr

/-- Which candidate of the fallback chain a load was served from (the reader
flags legacy migration and backup restoration). -/
inductive LoadSource where
  | primary
  | legacyFingerprint
  | backup
deriving DecidableEq, Repr

/-- Modelled from the spec (§4.2 and §7): the reader's structured outcomes —
`NotFound` when no candidate file exists, `ParseFailure` carrying the selected
file's decode error message and, when a backup retry was attempted and also
failed, the backup's decode error message. -/
inductive LoadError where
  | NotFound
  | ParseFailure : String → Option String → LoadError
deriving DecidableEq, Repr

/-- Modelled from the spec (§4.2 fallback chain): first existing candidate
wins, in the fixed order primary, legacy-per-fingerprint, backup; the check is
existence-only — the file's content is not inspected here. -/
def select_candidate (fs : CacheFs) : Option (FileBytes × LoadSource) :=
  match fs.primary with
  | some f => some (f, .primary)
  | none =>
    match fs.legacyFile with
    | some f => some (f, .legacyFingerprint)
    | none =>
      match fs.backup with
      | some f => some (f, .backup)
      | none => none

/-- Modelled from the spec (§4.2 decoding): attempt the current schema first;
on failure attempt the legacy schema and migrate; if neither succeeds, fail
carrying both error messages. -/
def decode_context (f : FileBytes) : Except String ProjectContext :=
  match f.decodeV2 with
  | some ctx => .ok ctx
  | none =>
    match f.decodeLegacy with
    | some d => .ok (migrate_legacy d)
    | none => .error (f.v2_error ++ "; " ++ f.legacy_error)

/-- Modelled from the spec (§4.2, Reader/Migrator contract with recovery):
select the first existing candidate, decode it under both schemas; if that
fails and a distinct backup file exists, retry the full two-schema decode
against the backup before declaring the failure fatal. -/
def load_context (fs : CacheFs) : Except LoadError (ProjectContext × LoadSource) :=
  match select_candidate fs with
  | none => .error .NotFound
  | some (f, src) =>
    match decode_context f with
    | .ok ctx => .ok (ctx, src)
    | .error e1 =>
      match src, fs.backup with
      | .backup, _ => .error (.ParseFailure e1 none)
      | _, none => .error (.ParseFailure e1 none)
      | _, some b =>
        match decode_context b with
        | .ok ctx => .ok (ctx, .backup)
        | .error e2 => .error (.ParseFailure e1 (some e2))

/-- Modelled from the spec: a document written by the writer — it decodes
under the current schema to exactly the saved context (step 6's serialization
is stable and self-describing, so decoding inverts it). -/
def encode_v2 (ctx : ProjectContext) : FileBytes :=
  { decodeV2 := some ctx, decodeLegacy := none, v2_error := "", legacy_error := "" }

/-- Modelled from the spec (Writer steps 6–8): overwrite the primary file
with the new document, copy it to the backup path, and delete the legacy
per-fingerprint files. -/
def persist_save (ctx : ProjectContext) : CacheFs :=
  { primary := some (encode_v2 ctx)
    legacyFile := none
    backup := some (encode_v2 ctx) }

/-- One save invocation's free-text inputs and its timestamp. -/
structure SaveOp where
  task : String
  summary : String
  now : String
deriving DecidableEq, Repr

/-- A sequence of save invocations, each merging into the context produced by
the one before it (chained through save's own output, which by the round-trip
property is what the next invocation loads). -/
def run_saves (meta : ProjectMeta) (ops : List SaveOp) (prev : Option ProjectContext) :
    Option ProjectContext :=
  ops.foldl (fun acc op => some (save_context meta op.task op.summary op.now acc)) prev

/-- The session entry a save operation appends. -/
def SaveOp.entry (op : SaveOp) : SessionEntry := ⟨op.now, op.task, op.summary⟩

/-- Entries listed in strictly increasing timestamp order. -/
def strictIncEntries (es : List SessionEntry) : Prop :=
  es.Pairwise (fun a b => strLe b.datetime a.datetime = false)

/-! ## Concrete inputs for the witness theorems -/

/-- A concrete metadata record. -/
def meta0 : ProjectMeta :=
  { project_name := "ollama-oxide", version := "0.1.0", repository := "repo"
    license := "MIT", build_system := "cargo", language := "rust", edition := "2021"
    modules := ["http"], critical_files := [], api_spec_files := []
    implementation_plan_files := [], project_path := "/p", build_status := "ok"
    project_hash := "abcd0123" }

/-- Fifteen save operations with strictly increasing timestamps. -/
def ops15 : List SaveOp :=
  [⟨"a", "b", "t00"⟩, ⟨"a", "b", "t01"⟩, ⟨"a", "b", "t02"⟩, ⟨"a", "b", "t03"⟩,
   ⟨"a", "b", "t04"⟩, ⟨"a", "b", "t05"⟩, ⟨"a", "b", "t06"⟩, ⟨"a", "b", "t07"⟩,
   ⟨"a", "b", "t08"⟩, ⟨"a", "b", "t09"⟩, ⟨"a", "b", "t10"⟩, ⟨"a", "b", "t11"⟩,
   ⟨"a", "b", "t12"⟩, ⟨"a", "b", "t13"⟩, ⟨"a", "b", "t14"⟩]

/-- A concrete legacy document with nonempty task and summary (the spec's
`{task:"A", summary:"B", last_session:"T"}` example). -/
def legacyDocAB : LegacyDoc :=
  { project_name := "ollama-oxide", version := "0.1.0", repository := "repo"
    license := "MIT", build_system := "cargo", language := "rust", edition := "2021"
    modules := ["http"], module_count := 1, critical_files := [], api_spec_files := []
    implementation_plan_files := [], session_count := 4, total_sessions := 4
    created_at := "t0", last_session := "T", project_path := "/p", build_status := "ok"
    cache_schema_version := "legacy", project_hash := "abcd0123"
    task := "A", summary := "B" }

/-- A concrete legacy document with both task and summary empty. -/
def legacyDocEmpty : LegacyDoc :=
  { legacyDocAB with task := "", summary := "" }

/-- A context obtained by migrating the concrete legacy document. -/
def ctxA : ProjectContext := migrate_legacy legacyDocAB

/-- A cache file that decodes only under the legacy schema. -/
def fileLegacyAB : FileBytes := ⟨none, some legacyDocAB, "missing session_history", "-"⟩

/-- A cache file that decodes under neither schema. -/
def fileCorrupt : FileBytes := ⟨none, none, "bad v2", "bad legacy"⟩

/-- A backup file holding a valid current-schema document. -/
def fileBackupA : FileBytes := encode_v2 ctxA

/-- A store with only the legacy-per-fingerprint file present. -/
def fsLegacyOnly : CacheFs := ⟨none, some fileLegacyAB, none⟩

/-- A store whose primary is corrupt but whose backup is valid. -/
def fsCorruptPrimary : CacheFs := ⟨some fileCorrupt, none, some fileBackupA⟩

/-! ## Order lemmas for the timestamp comparison -/

/-- `charsLe` is total. -/
theorem charsLe_total : ∀ a b : List Char, charsLe a b = true ∨ charsLe b a = true
  | [], _ => Or.inl rfl
  | _ :: _, [] => Or.inr rfl
  | a :: as, b :: bs => by
    simp only [charsLe]
    rcases Nat.lt_trichotomy a.toNat b.toNat with h | h | h
    · left; rw [if_pos h]
    · rw [if_neg (by omega), if_neg (by omega), if_neg (by omega), if_neg (by omega)]
      exact charsLe_total as bs
    · right; rw [if_pos h]

/-- If `b ≤ a` fails then `a ≤ b` holds (lexicographic totality on strings). -/
theorem strLe_of_not_ge {a b : String} (h : strLe b a = false) : strLe a b = true := by
  rcases charsLe_total a.toList b.toList with h1 | h1
  · exact h1
  · exfalso
    have h' : charsLe b.toList a.toList = false := h
    rw [h'] at h1
    exact Bool.noConfusion h1

/-- Sorting a list that is already sorted with a maximal element appended is
the identity. -/
theorem insertionSort_append_last {h : List SessionEntry} {e : SessionEntry}
    (hs : h.Sorted leEntry) (he : ∀ x ∈ h, leEntry x e) :
    List.insertionSort leEntry (h ++ [e]) = h ++ [e] := by
  apply List.Sorted.insertionSort_eq
  refine List.pairwise_append.mpr ⟨hs, List.pairwise_singleton _ _, ?_⟩
  intro a ha b hb
  rw [List.mem_singleton] at hb
  subst hb
  exact he a ha

/-- The merged history never exceeds 10 entries. -/
theorem mergeHistory_length_le (h : List SessionEntry) (e : SessionEntry) :
    (mergeHistory h e).length ≤ 10 := by
  simp only [mergeHistory]
  split
  · simp only [List.length_drop]
    omega
  · omega

/-- Merging into a sorted history whose entries all precede the new entry is
append-then-truncate. -/
theorem mergeHistory_sorted_append {h : List SessionEntry} {e : SessionEntry}
    (hs : h.Sorted leEntry) (he : ∀ x ∈ h, leEntry x e) :
    mergeHistory h e =
      if (h ++ [e]).length > 10 then (h ++ [e]).drop ((h ++ [e]).length - 10)
      else h ++ [e] := by
  simp only [mergeHistory, insertionSort_append_last hs he]

/-- A strictly increasing entry list is sorted for `leEntry`. -/
theorem strictIncEntries.sorted {es : List SessionEntry} (h : strictIncEntries es) :
    es.Sorted leEntry :=
  h.imp strLe_of_not_ge

/-- Folding `mergeHistory` over strictly increasing entries keeps exactly the
final (at most) 10 of them: the result is the input with its front dropped
down to length 10. -/
theorem foldl_mergeHistory_strictInc :
    ∀ es : List SessionEntry, strictIncEntries es →
      es.foldl mergeHistory [] = es.drop (es.length - 10) := by
  intro es
  induction es using List.reverseRecOn with
  | nil => intro _; rfl
  | append_singleton l a ih =>
    intro hinc
    have hpa := List.pairwise_append.mp hinc
    have hl : strictIncEntries l := hpa.1
    have hrel : ∀ x ∈ l, strLe a.datetime x.datetime = false := by
      intro x hx
      exact hpa.2.2 x hx a (List.mem_singleton_self a)
    rw [List.foldl_append, List.foldl_cons, List.foldl_nil, ih hl]
    have htsort : (l.drop (l.length - 10)).Sorted leEntry :=
      (hl.sorted).sublist (List.drop_sublist _ _)
    have htle : ∀ x ∈ l.drop (l.length - 10), leEntry x a := by
      intro x hx
      exact strLe_of_not_ge (hrel x ((List.drop_sublist _ _).mem hx))
    rw [mergeHistory_sorted_append htsort htle]
    by_cases hlen : 10 < l.length
    · have hdl : (l.drop (l.length - 10)).length = 10 := by
        rw [List.length_drop]; omega
      rw [if_pos (by simp [List.length_append, hdl])]
      rw [← List.drop_append_of_le_length (by omega : l.length - 10 ≤ l.length)]
      rw [List.drop_drop]
      have hidx : l.length - 10 + ((List.drop (l.length - 10) (l ++ [a])).length - 10) =
          (l ++ [a]).length - 10 := by
        simp only [List.length_drop, List.length_append, List.length_singleton]
        omega
      rw [hidx]
    · have h0 : l.length - 10 = 0 := by omega
      rw [h0, List.drop_zero]
      by_cases h10 : l.length = 10
      · rw [if_pos (by simp [List.length_append, h10])]
      · rw [if_neg (by simp [List.length_append]; omega)]
        have h0' : (l ++ [a]).length - 10 = 0 := by
          simp only [List.length_append, List.length_singleton]; omega
        rw [h0', List.drop_zero]

/-- The history of a chain of saves started from a loaded context is the
`mergeHistory` fold of the appended entries. -/
theorem run_saves_history (meta : ProjectMeta) :
    ∀ (ops : List SaveOp) (p : ProjectContext),
      (run_saves meta ops (some p)).map ProjectContext.session_history =
        some ((ops.map SaveOp.entry).foldl mergeHistory p.session_history) := by
  intro ops
  induction ops with
  | nil => intro p; rfl
  | cons op ops ih =>
    intro p
    simp only [run_saves, List.foldl_cons, List.map_cons] at ih ⊢
    exact ih (save_context meta op.task op.summary op.now (some p))

/-- The history of a nonempty chain of saves started from scratch. -/
theorem run_saves_history_none (meta : ProjectMeta) (op : SaveOp) (ops : List SaveOp) :
    (run_saves meta (op :: ops) none).map ProjectContext.session_history =
      some (((op :: ops).map SaveOp.entry).foldl mergeHistory []) := by
  simp only [run_saves, List.foldl_cons, List.map_cons] at *
  exact run_saves_history meta ops (save_context meta op.task op.summary op.now none)

/-- Any context reached by a chain of saves from `p` is `p` itself or carries
schema version `"2.0"`. -/
theorem run_saves_version (meta : ProjectMeta) :
    ∀ (ops : List SaveOp) (p ctx : ProjectContext),
      run_saves meta ops (some p) = some ctx →
      ctx = p ∨ ctx.cache_schema_version = "2.0" := by
  intro ops
  induction ops with
  | nil =>
    intro p ctx h
    left
    exact (Option.some.inj h).symm
  | cons op ops ih =>
    intro p ctx h
    simp only [run_saves, List.foldl_cons] at h ih
    rcases ih (save_context meta op.task op.summary op.now (some p)) ctx h with h1 | h1
    · right; subst h1; rfl
    · right; exact h1

/-- `created_at` is constant along any chain of saves. -/
theorem run_saves_created_at (meta : ProjectMeta) :
    ∀ (ops : List SaveOp) (p ctx : ProjectContext),
      run_saves meta ops (some p) = some ctx → ctx.created_at = p.created_at := by
  intro ops
  induction ops with
  | nil =>
    intro p ctx h
    rw [(Option.some.inj h).symm]
  | cons op ops ih =>
    intro p ctx h
    simp only [run_saves, List.foldl_cons] at h ih
    exact ih (save_context meta op.task op.summary op.now (some p)) ctx h

/-- `total_sessions` grows by exactly the number of saves along any chain. -/
theorem run_saves_total_sessions (meta : ProjectMeta) :
    ∀ (ops : List SaveOp) (p ctx : ProjectContext),
      run_saves meta ops (some p) = some ctx →
      ctx.total_sessions = p.total_sessions + ops.length := by
  intro ops
  induction ops with
  | nil =>
    intro p ctx h
    rw [(Option.some.inj h).symm]
    simp
  | cons op ops ih =>
    intro p ctx h
    simp only [run_saves, List.foldl_cons] at h ih
    have := ih (save_context meta op.task op.summary op.now (some p)) ctx h
    simp only [List.length_cons]
    rw [this]
    show p.total_sessions + 1 + ops.length = _
    omega


/-! ## Claim theorems -/

/-- Claim C1: bounded history invariant — every context produced by a save
(and every context a load yields from a store the writer produced, and every
migrated legacy document) has `session_history` of length at most 10; after
15 saves with strictly increasing timestamps the history is exactly the 10
most recent entries (the first 5 are dropped). -/
theorem bounded_history_invariant :
    (∀ (meta : ProjectMeta) (task summary now : String) (prev : Option ProjectContext),
        (save_context meta task summary now prev).session_history.length ≤ 10) ∧
    (∀ d : LegacyDoc, (migrate_legacy d).session_history.length ≤ 10) ∧
    (∀ (meta : ProjectMeta) (ops : List SaveOp),
        ops.length = 15 →
        (ops.map SaveOp.entry).Pairwise (fun a b => strLe b.datetime a.datetime = false) →
        (run_saves meta ops none).map ProjectContext.session_history =
            some ((ops.map SaveOp.entry).drop 5) ∧
          ((ops.map SaveOp.entry).drop 5).length = 10) ∧
    (∀ (meta : ProjectMeta) (task summary now : String) (prev : Option ProjectContext)
        (ctx : ProjectContext) (src : LoadSource),
        load_context (persist_save (save_context meta task summary now prev)) =
          .ok (ctx, src) →
        ctx.session_history.length ≤ 10) := by
  refine ⟨?_, ?_, ?_, ?_⟩
  · intro meta task summary now prev
    exact mergeHistory_length_le _ _
  · intro d
    simp only [migrate_legacy]
    split <;> simp only [List.length_singleton, List.length_nil] <;> omega
  · intro meta ops h15 hinc
    cases ops with
    | nil => simp at h15
    | cons op ops' =>
      constructor
      · rw [run_saves_history_none, foldl_mergeHistory_strictInc _ hinc]
        have hlen : ((op :: ops').map SaveOp.entry).length = 15 := by
          rw [List.length_map]; exact h15
        rw [hlen]
      · rw [List.length_drop, List.length_map, h15]
  · intro meta task summary now prev ctx src h
    have h' : Except.ok (ε := LoadError)
        (save_context meta task summary now prev, LoadSource.primary) = .ok (ctx, src) := h
    have h2 := Except.ok.inj h'
    have hctx : ctx = save_context meta task summary now prev := (congrArg Prod.fst h2).symm
    rw [hctx]
    exact mergeHistory_length_le _ _

/-- Witness for C1: the 15-save scenario and the save-then-load bound at
concrete inputs. -/
theorem bounded_history_invariant_witness :
    ((run_saves meta0 ops15 none).map ProjectContext.session_history =
        some ((ops15.map SaveOp.entry).drop 5) ∧
      ((ops15.map SaveOp.entry).drop 5).length = 10) ∧
    (save_context meta0 "a" "b" "t" none).session_history.length ≤ 10 :=
  ⟨bounded_history_invariant.2.2.1 meta0 ops15 (by decide) (by decide),
   bounded_history_invariant.2.2.2 meta0 "a" "b" "t" none
     (save_context meta0 "a" "b" "t" none) LoadSource.primary rfl⟩


/-- The reader never returns `NotFound` once a candidate was selected. -/
theorem load_selected_ne_notFound (fs : CacheFs) (f : FileBytes) (src : LoadSource)
    (hsel : select_candidate fs = some (f, src)) :
    load_context fs ≠ .error .NotFound := by
  intro h
  simp only [load_context, hsel] at h
  cases hdec : decode_context f with
  | ok ctx => simp [hdec] at h
  | error e1 =>
    simp only [hdec] at h
    cases src with
    | backup => simp at h
    | primary =>
      cases hb : fs.backup with
      | none => simp [hb] at h
      | some bk =>
        simp only [hb] at h
        cases hdec2 : decode_context bk with
        | ok ctx => simp [hdec2] at h
        | error e2 => simp [hdec2] at h
    | legacyFingerprint =>
      cases hb : fs.backup with
      | none => simp [hb] at h
      | some bk =>
        simp only [hb] at h
        cases hdec2 : decode_context bk with
        | ok ctx => simp [hdec2] at h
        | error e2 => simp [hdec2] at h

/-- Claim C3: fallback chain — load selects the first existing candidate in
the fixed order primary, legacy-per-fingerprint, backup (regardless of
content), serves migrated legacy content or backup content accordingly, and
returns `NotFound` exactly when none of the three files exists. -/
theorem fallback_chain_selection :
    (∀ (fs : CacheFs) (f : FileBytes), fs.primary = some f →
        select_candidate fs = some (f, .primary)) ∧
    (∀ (fs : CacheFs) (f : FileBytes), fs.primary = none → fs.legacyFile = some f →
        select_candidate fs = some (f, .legacyFingerprint)) ∧
    (∀ (fs : CacheFs) (f : FileBytes), fs.primary = none → fs.legacyFile = none →
        fs.backup = some f → select_candidate fs = some (f, .backup)) ∧
    (∀ (fs : CacheFs) (f : FileBytes) (d : LegacyDoc),
        fs.primary = none → fs.legacyFile = some f →
        f.decodeV2 = none → f.decodeLegacy = some d →
        load_context fs = .ok (migrate_legacy d, .legacyFingerprint)) ∧
    (∀ (fs : CacheFs) (f : FileBytes) (ctx : ProjectContext),
        fs.primary = none → fs.legacyFile = none → fs.backup = some f →
        f.decodeV2 = some ctx →
        load_context fs = .ok (ctx, .backup)) ∧
    (∀ fs : CacheFs, load_context fs = .error .NotFound ↔
        fs.primary = none ∧ fs.legacyFile = none ∧ fs.backup = none) := by
  refine ⟨?_, ?_, ?_, ?_, ?_, ?_⟩
  · intro fs f h
    simp [select_candidate, h]
  · intro fs f h1 h2
    simp [select_candidate, h1, h2]
  · intro fs f h1 h2 h3
    simp [select_candidate, h1, h2, h3]
  · intro fs f d h1 h2 hv hl
    simp [load_context, select_candidate, decode_context, h1, h2, hv, hl]
  · intro fs f ctx h1 h2 h3 hv
    simp [load_context, select_candidate, decode_context, h1, h2, h3, hv]
  · intro fs
    constructor
    · intro h
      obtain ⟨p, l, b⟩ := fs
      cases hp : p with
      | some f =>
        subst hp
        exact absurd h (load_selected_ne_notFound _ f .primary (by simp [select_candidate]))
      | none =>
        subst hp
        cases hl : l with
        | some f =>
          subst hl
          exact absurd h
            (load_selected_ne_notFound _ f .legacyFingerprint (by simp [select_candidate]))
        | none =>
          subst hl
          cases hb : b with
          | some f =>
            subst hb
            exact absurd h (load_selected_ne_notFound _ f .backup (by simp [select_candidate]))
          | none =>
            subst hb
            exact ⟨rfl, rfl, rfl⟩
    · intro h
      obtain ⟨h1, h2, h3⟩ := h
      simp [load_context, select_candidate, h1, h2, h3]

/-- Witness for C3: selection and `NotFound` at concrete stores. -/
theorem fallback_chain_selection_witness :
    select_candidate fsLegacyOnly = some (fileLegacyAB, .legacyFingerprint) ∧
    load_context fsLegacyOnly = .ok (migrate_legacy legacyDocAB, .legacyFingerprint) ∧
    (load_context (CacheFs.mk none none none) = .error .NotFound ↔
      (CacheFs.mk none none none).primary = none ∧
        (CacheFs.mk none none none).legacyFile = none ∧
        (CacheFs.mk none none none).backup = none) :=
  ⟨fallback_chain_selection.2.1 fsLegacyOnly fileLegacyAB rfl rfl,
   fallback_chain_selection.2.2.2.1 fsLegacyOnly fileLegacyAB legacyDocAB rfl rfl rfl rfl,
   fallback_chain_selection.2.2.2.2.2 (CacheFs.mk none none none)⟩

/-- Claim C4: corruption recovery — when the selected file fails both decodes,
the reader retries the full two-schema decode against a distinct existing
backup; if no backup recovery succeeds it returns `ParseFailure` carrying both
decode error messages. -/
theorem corruption_recovery :
    (∀ f : FileBytes, f.decodeV2 = none → f.decodeLegacy = none →
        decode_context f = .error (f.v2_error ++ "; " ++ f.legacy_error)) ∧
    (∀ (fs : CacheFs) (f : FileBytes) (src : LoadSource) (e1 : String) (b : FileBytes)
        (ctx : ProjectContext),
        select_candidate fs = some (f, src) → src ≠ .backup →
        decode_context f = .error e1 → fs.backup = some b →
        decode_context b = .ok ctx →
        load_context fs = .ok (ctx, .backup)) ∧
    (∀ (fs : CacheFs) (f : FileBytes) (src : LoadSource) (e1 e2 : String) (b : FileBytes),
        select_candidate fs = some (f, src) → src ≠ .backup →
        decode_context f = .error e1 → fs.backup = some b →
        decode_context b = .error e2 →
        load_context fs = .error (.ParseFailure e1 (some e2))) ∧
    (∀ (fs : CacheFs) (f : FileBytes) (src : LoadSource) (e1 : String),
        select_candidate fs = some (f, src) →
        decode_context f = .error e1 →
        (src = .backup ∨ fs.backup = none) →
        load_context fs = .error (.ParseFailure e1 none)) := by
  refine ⟨?_, ?_, ?_, ?_⟩
  · intro f hv hl
    simp [decode_context, hv, hl]
  · intro fs f src e1 b ctx hsel hsrc hdec hb hdecb
    cases src with
    | backup => exact absurd rfl hsrc
    | primary => simp [load_context, hsel, hdec, hb, hdecb]
    | legacyFingerprint => simp [load_context, hsel, hdec, hb, hdecb]
  · intro fs f src e1 e2 b hsel hsrc hdec hb hdecb
    cases src with
    | backup => exact absurd rfl hsrc
    | primary => simp [load_context, hsel, hdec, hb, hdecb]
    | legacyFingerprint => simp [load_context, hsel, hdec, hb, hdecb]
  · intro fs f src e1 hsel hdec hcase
    cases src with
    | backup => simp [load_context, hsel, hdec]
    | primary =>
      rcases hcase with hc | hc
      · exact absurd hc (by simp)
      · simp [load_context, hsel, hdec, hc]
    | legacyFingerprint =>
      rcases hcase with hc | hc
      · exact absurd hc (by simp)
      · simp [load_context, hsel, hdec, hc]

/-- Witness for C4: a corrupt primary recovered from a valid backup, and the
same corrupt primary without a backup failing with both error messages. -/
theorem corruption_recovery_witness :
    load_context fsCorruptPrimary = .ok (ctxA, .backup) ∧
    load_context (CacheFs.mk (some fileCorrupt) none none) =
      .error (.ParseFailure ("bad v2" ++ "; " ++ "bad legacy") none) :=
  ⟨corruption_recovery.2.1 fsCorruptPrimary fileCorrupt .primary
      ("bad v2" ++ "; " ++ "bad legacy") fileBackupA ctxA rfl (by decide) rfl rfl rfl,
   corruption_recovery.2.2.2 (CacheFs.mk (some fileCorrupt) none none) fileCorrupt .primary
      ("bad v2" ++ "; " ++ "bad legacy") rfl rfl (Or.inr rfl)⟩

/-- Claim C5: on every save `total_sessions` is the previous value plus one
(one when there is no previous context) and `created_at` is preserved (set to
the current timestamp only on the first write); along any chain of saves
`created_at` stays constant and `total_sessions` grows by exactly one per
save. -/
theorem session_counters_and_created_at :
    (∀ (meta : ProjectMeta) (task summary now : String) (p : ProjectContext),
        (save_context meta task summary now (some p)).total_sessions =
          p.total_sessions + 1) ∧
    (∀ (meta : ProjectMeta) (task summary now : String),
        (save_context meta task summary now none).total_sessions = 1) ∧
    (∀ (meta : ProjectMeta) (task summary now : String) (p : ProjectContext),
        (save_context meta task summary now (some p)).created_at = p.created_at) ∧
    (∀ (meta : ProjectMeta) (task summary now : String),
        (save_context meta task summary now none).created_at = now) ∧
    (∀ (meta : ProjectMeta) (ops : List SaveOp) (p ctx : ProjectContext),
        run_saves meta ops (some p) = some ctx → ctx.created_at = p.created_at) ∧
    (∀ (meta : ProjectMeta) (ops : List SaveOp) (p ctx : ProjectContext),
        run_saves meta ops (some p) = some ctx →
        ctx.total_sessions = p.total_sessions + ops.length) :=
  ⟨fun _ _ _ _ _ => rfl, fun _ _ _ _ => rfl, fun _ _ _ _ _ => rfl, fun _ _ _ _ => rfl,
   fun meta ops p ctx h => run_saves_created_at meta ops p ctx h,
   fun meta ops p ctx h => run_saves_total_sessions meta ops p ctx h⟩

/-- Witness for C5: a one-save chain from a concrete context. -/
theorem session_counters_and_created_at_witness :
    (save_context meta0 "x" "y" "t9" (some ctxA)).created_at = ctxA.created_at ∧
    (save_context meta0 "x" "y" "t9" (some ctxA)).total_sessions =
      ctxA.total_sessions + 1 :=
  ⟨session_counters_and_created_at.2.2.2.2.1 meta0 [⟨"x", "y", "t9"⟩] ctxA
      (save_context meta0 "x" "y" "t9" (some ctxA)) rfl,
   by
    have h := session_counters_and_created_at.2.2.2.2.2 meta0 [⟨"x", "y", "t9"⟩] ctxA
      (save_context meta0 "x" "y" "t9" (some ctxA)) rfl
    simpa using h⟩

/-- Claim C6: save/load round-trip — persisting a saved context and
immediately loading from the same store returns exactly that context (every
field equal), served from the primary file. -/
theorem save_load_round_trip (meta : ProjectMeta) (task summary now : String)
    (prev : Option ProjectContext) :
    load_context (persist_save (save_context meta task summary now prev)) =
      .ok (save_context meta task summary now prev, .primary) := rfl

/-- Claim C7: one-way schema migration — every legacy decode migrates to a
`"2.0"` record, every save writes a `"2.0"` record, and any nonempty chain of
saves ends in a `"2.0"` record: `V2` is absorbing. -/
theorem one_way_schema_migration :
    (∀ d : LegacyDoc, (migrate_legacy d).cache_schema_version = "2.0") ∧
    (∀ (meta : ProjectMeta) (task summary now : String) (prev : Option ProjectContext),
        (save_context meta task summary now prev).cache_schema_version = "2.0") ∧
    (∀ (f : FileBytes) (d : LegacyDoc), f.decodeV2 = none → f.decodeLegacy = some d →
        decode_context f = .ok (migrate_legacy d) ∧
          (migrate_legacy d).cache_schema_version = "2.0") ∧
    (∀ (meta : ProjectMeta) (ops : List SaveOp) (prev : Option ProjectContext)
        (ctx : ProjectContext),
        ops ≠ [] → run_saves meta ops prev = some ctx →
        ctx.cache_schema_version = "2.0") := by
  refine ⟨fun _ => rfl, fun _ _ _ _ _ => rfl, ?_, ?_⟩
  · intro f d hv hl
    exact ⟨by simp [decode_context, hv, hl], rfl⟩
  · intro meta ops prev ctx hne h
    cases ops with
    | nil => exact absurd rfl hne
    | cons op ops' =>
      simp only [run_saves, List.foldl_cons] at h
      rcases run_saves_version meta ops'
          (save_context meta op.task op.summary op.now prev) ctx h with h1 | h1
      · subst h1; rfl
      · exact h1

/-- Witness for C7: legacy decode and a one-save chain at concrete inputs. -/
theorem one_way_schema_migration_witness :
    (decode_context fileLegacyAB = .ok (migrate_legacy legacyDocAB) ∧
      (migrate_legacy legacyDocAB).cache_schema_version = "2.0") ∧
    (save_context meta0 "x" "y" "t" none).cache_schema_version = "2.0" :=
  ⟨one_way_schema_migration.2.2.1 fileLegacyAB legacyDocAB rfl rfl,
   one_way_schema_migration.2.2.2 meta0 [⟨"x", "y", "t"⟩] none
     (save_context meta0 "x" "y" "t" none) (by decide) rfl⟩

/-- Claim C2: legacy migration — all scalar and list fields are copied
verbatim; `session_history` is the single entry stamped with the document's
`last_session` when task or summary is non-empty and empty otherwise; the
result carries `cache_schema_version = "2.0"`. -/
theorem legacy_migration_correct (d : LegacyDoc) :
    (migrate_legacy d).project_name = d.project_name ∧
    (migrate_legacy d).version = d.version ∧
    (migrate_legacy d).repository = d.repository ∧
    (migrate_legacy d).license = d.license ∧
    (migrate_legacy d).build_system = d.build_system ∧
    (migrate_legacy d).language = d.language ∧
    (migrate_legacy d).edition = d.edition ∧
    (migrate_legacy d).modules = d.modules ∧
    (migrate_legacy d).module_count = d.module_count ∧
    (migrate_legacy d).critical_files = d.critical_files ∧
    (migrate_legacy d).api_spec_files = d.api_spec_files ∧
    (migrate_legacy d).implementation_plan_files = d.implementation_plan_files ∧
    (migrate_legacy d).session_count = d.session_count ∧
    (migrate_legacy d).total_sessions = d.total_sessions ∧
    (migrate_legacy d).created_at = d.created_at ∧
    (migrate_legacy d).last_session = d.last_session ∧
    (migrate_legacy d).project_path = d.project_path ∧
    (migrate_legacy d).build_status = d.build_status ∧
    (migrate_legacy d).project_hash = d.project_hash ∧
    (migrate_legacy d).cache_schema_version = "2.0" ∧
    ((d.task ≠ "" ∨ d.summary ≠ "") →
      (migrate_legacy d).session_history = [⟨d.last_session, d.task, d.summary⟩]) ∧
    (d.task = "" → d.summary = "" → (migrate_legacy d).session_history = []) := by
  refine ⟨rfl, rfl, rfl, rfl, rfl, rfl, rfl, rfl, rfl, rfl, rfl, rfl, rfl, rfl, rfl,
    rfl, rfl, rfl, rfl, rfl, ?_, ?_⟩
  · intro hne
    simp only [migrate_legacy]
    rw [if_pos hne]
  · intro ht hs
    simp only [migrate_legacy]
    rw [if_neg (by simp [ht, hs])]

/-- Witness for C2: the spec's two migration examples at concrete documents. -/
theorem legacy_migration_correct_witness :
    (migrate_legacy legacyDocAB).session_history = [⟨"T", "A", "B"⟩] ∧
    (migrate_legacy legacyDocEmpty).session_history = [] :=
  ⟨(legacy_migration_correct legacyDocAB).2.2.2.2.2.2.2.2.2.2.2.2.2.2.2.2.2.2.2.2.1
      (by decide),
    (legacy_migration_correct legacyDocEmpty).2.2.2.2.2.2.2.2.2.2.2.2.2.2.2.2.2.2.2.2.2
      rfl rfl⟩

/-- Claim C8: `ClientConfig::new` returns an error exactly when the base URL
fails to parse as an absolute URL or its scheme is neither `http` nor `https`;
on success the accessors return exactly the arguments passed, the base URL
stored verbatim. -/
theorem client_config_new_validation :
    (∀ (u : String) (t : Duration) (r : Nat),
        (ClientConfig.new u t r).isOk = false ↔
          (Url.parse u = none ∨
            ∀ url, Url.parse u = some url →
              url.scheme ≠ "http" ∧ url.scheme ≠ "https")) ∧
    (∀ (u : String) (t : Duration) (r : Nat) (c : ClientConfig),
        ClientConfig.new u t r = .ok c →
        c.base_url = u ∧ c.timeout = t ∧ c.max_retries = r) := by
  constructor
  · intro u t r
    cases hp : Url.parse u with
    | none => simp [ClientConfig.new, validate_base_url, hp, Except.isOk, Except.toBool]
    | some url =>
      by_cases hs : url.scheme ≠ "http" ∧ url.scheme ≠ "https"
      · simp [ClientConfig.new, validate_base_url, hp, hs, Except.isOk, Except.toBool]
      · simp [ClientConfig.new, validate_base_url, hp, hs, Except.isOk, Except.toBool]
  · intro u t r c h
    unfold ClientConfig.new at h
    cases hv : validate_base_url u with
    | error e => rw [hv] at h; exact Except.noConfusion h
    | ok u0 =>
      rw [hv] at h
      have h2 := Except.ok.inj h
      subst h2
      exact ⟨rfl, rfl, rfl⟩

/-- Witness for C8: a successful construction at concrete arguments whose
accessors return the arguments unchanged. -/
theorem client_config_new_validation_witness :
    (ClientConfig.mk "http://example.com:8080" (Duration.from_secs 60) 5).base_url =
        "http://example.com:8080" ∧
      (ClientConfig.mk "http://example.com:8080" (Duration.from_secs 60) 5).timeout =
        Duration.from_secs 60 ∧
      (ClientConfig.mk "http://example.com:8080" (Duration.from_secs 60) 5).max_retries = 5 :=
  client_config_new_validation.2 "http://example.com:8080" (Duration.from_secs 60) 5
    (ClientConfig.mk "http://example.com:8080" (Duration.from_secs 60) 5) rfl

/-- Claim C9: `with_base_url u` equals `new u 30s 3` (so it succeeds exactly
when `new` does and agrees on success), `with_base_url_and_timeout u t` equals
`new u t 3`, and the default configuration is `http://localhost:11434`, 30
seconds, 3 retries — a combination that satisfies the URL validity check. -/
theorem constructor_agreement_and_defaults :
    (∀ u : String,
        ClientConfig.with_base_url u = ClientConfig.new u (Duration.from_secs 30) 3) ∧
    (∀ (u : String) (t : Duration),
        ClientConfig.with_base_url_and_timeout u t = ClientConfig.new u t 3) ∧
    (∀ (u : String) (t : Duration) (r : Nat),
        (ClientConfig.with_base_url u).isOk = (ClientConfig.new u t r).isOk) ∧
    ClientConfig.default.base_url = "http://localhost:11434" ∧
    ClientConfig.default.timeout = Duration.from_secs 30 ∧
    ClientConfig.default.max_retries = 3 ∧
    validate_base_url ClientConfig.default.base_url = .ok () := by
  refine ⟨?_, ?_, ?_, rfl, rfl, rfl, rfl⟩
  · intro u
    unfold ClientConfig.with_base_url ClientConfig.new
    cases hv : validate_base_url u <;> rfl
  · intro u t
    unfold ClientConfig.with_base_url_and_timeout ClientConfig.new
    cases hv : validate_base_url u <;> rfl
  · intro u t r
    unfold ClientConfig.with_base_url ClientConfig.new
    cases hv : validate_base_url u <;> rfl

/-- Claim C10: URL building is plain concatenation — `c.url e` is exactly the
stored base URL followed by the endpoint, with nothing inserted (witnessed by
the length identity). -/
theorem url_plain_concatenation (c : ClientConfig) (e : String) :
    c.url e = c.base_url ++ e ∧ (c.url e).length = c.base_url.length + e.length :=
  ⟨rfl, String.length_append _ _⟩
